import Mathlib

/-!
# Verification of the velog-dashboard stats-refresh pipeline

Shallow embedding of the queue consumer (`consumer/stats_refresh_consumer.py`),
the retry orchestrator (`consumer/message_handler.py`), the Redis queue client
(`modules/redis/client.py`) and the crawl engine (`scraping/main.py`), together
with theorems settling the frozen claims about them.

Conventions of the embedding:
* A Python dict used as a JSON message is an ordered association list
  (`Msg`): `json.dumps` is injective on such dicts and preserves insertion
  order, so two messages serialize to the same Redis string exactly when the
  association lists are equal.  Redis list entries therefore store `Msg`
  values directly.
* Redis lists are Lean lists with the head at the Redis head (`LPUSH`
  prepends, `BRPOP` takes the last element, `LTRIM 0 (cap-1)` is `take cap`).
* Fallible Python calls (decryption, HTTP fetches, `asave`) are `Except`
  valued oracles passed in as parameters; `raise` is `.error`.
-/

namespace VD2

/-- JSON scalar values appearing in queue messages. -/
inductive Val where
  | nat (n : Nat)
  | str (s : String)
deriving DecidableEq, Repr

/-- A queue message: a Python dict in insertion order (`json.dumps` form). -/
abbrev Msg := List (String × Val)

/-- `key in message` for a Python dict. -/
def hasKey (m : Msg) (k : String) : Bool :=
  match m with
  | [] => false
  | kv :: rest => kv.1 == k || hasKey rest k

/-- `message.get(k)` for a Python dict. -/
def dictGet (m : Msg) (k : String) : Option Val :=
  match m with
  | [] => none
  | kv :: rest => if kv.1 == k then some kv.2 else dictGet rest k

/-- `message[k] = v` for a Python dict: overwrite in place, else append. -/
def dictSet (m : Msg) (k : String) (v : Val) : Msg :=
  match m with
  | [] => [(k, v)]
  | kv :: rest =>
    if kv.1 == k then (k, v) :: rest else kv :: dictSet rest k v

/-- `message.get("retryCount", 0)` (messages carry it as a JSON number). -/
def getRetryCount (m : Msg) : Nat :=
  match dictGet m "retryCount" with
  | some (Val.nat n) => n
  | _ => 0

/-- Python exceptions distinguished by the retry orchestrator:
`ValueError` (terminal validation failure) versus any other `Exception`. -/
inductive PyExc where
  | valueError
  | exception
deriving DecidableEq, Repr

/-- `StatsRefreshMessageHandler.process_message` / `handle_message_sync`
(`consumer/message_handler.py:26-79`): raises `ValueError` when `userId` is
missing, otherwise runs the scraper, whose success is an oracle
(`scraperOk`); a scraper failure is a non-`ValueError` exception. -/
def processMessage (m : Msg) (scraperOk : Bool) : Except PyExc Unit :=
  if hasKey m "userId" then
    if scraperOk then Except.ok () else Except.error PyExc.exception
  else
    Except.error PyExc.valueError

/-- Result of `MessageProcessor.process_with_retry`: the returned bool, the
message dict as mutated in place by the attempt stamps, the backoff sleeps
performed (in order, in seconds), and the number of handler invocations. -/
structure RetryResult where
  result : Bool
  message : Msg
  sleeps : List Nat
  calls : Nat
deriving DecidableEq, Repr

/-- The two stamping assignments at `consumer/message_handler.py:109-110`:
`message["retryCount"] = retry_count + attempt` and
`message["lastAttemptAt"] = get_local_now().isoformat()` (timestamps come
from the clock oracle `now`). -/
def stamp (rc : Nat) (now : Nat → String) (attempt : Nat) (m : Msg) : Msg :=
  dictSet (dictSet m "retryCount" (Val.nat (rc + attempt))) "lastAttemptAt"
    (Val.str (now attempt))

/-- The `for attempt in range(max_retries)` loop of
`MessageProcessor.process_with_retry` (`consumer/message_handler.py:106-145`).
`fuel` is the number of attempts still available, `attempt` the current
attempt index; `scraperOk a` tells whether the scraper succeeds on attempt
`a`.  A `ValueError` returns `False` with no retry; other exceptions back
off `base ^ attempt` seconds unless this was the last attempt. -/
def retryGo (base rc : Nat) (scraperOk : Nat → Bool) (now : Nat → String) :
    Nat → Nat → Msg → RetryResult
  | 0, _, m => ⟨false, m, [], 0⟩
  | fuel + 1, attempt, m =>
    let m1 := stamp rc now attempt m
    match processMessage m1 (scraperOk attempt) with
    | Except.ok _ => ⟨true, m1, [], 1⟩
    | Except.error PyExc.valueError => ⟨false, m1, [], 1⟩
    | Except.error PyExc.exception =>
      if fuel == 0 then
        ⟨false, m1, [], 1⟩
      else
        let r := retryGo base rc scraperOk now fuel (attempt + 1) m1
        ⟨r.result, r.message, base ^ attempt :: r.sleeps, r.calls + 1⟩

/-- `MessageProcessor.process_with_retry` (`consumer/message_handler.py:94-145`)
with `MAX_RETRIES = maxRetries` and `RETRY_BACKOFF_BASE = base`. -/
def process_with_retry (maxRetries base : Nat) (scraperOk : Nat → Bool)
    (now : Nat → String) (m : Msg) : RetryResult :=
  retryGo base (getRetryCount m) scraperOk now maxRetries 0 m

section DictLemmas

theorem hasKey_dictSet_self (m : Msg) (k : String) (v : Val) :
    hasKey (dictSet m k v) k = true := by
  induction m with
  | nil => simp [dictSet, hasKey]
  | cons kv rest ih =>
    by_cases h : kv.1 == k
    · simp [dictSet, hasKey, h]
    · simp [dictSet, hasKey, h, ih]

theorem hasKey_dictSet_ne (m : Msg) (k k' : String) (v : Val) (h : k ≠ k') :
    hasKey (dictSet m k' v) k = hasKey m k := by
  induction m with
  | nil => simp [dictSet, hasKey, Ne.symm h]
  | cons kv rest ih =>
    by_cases hk : kv.1 == k'
    · have hkv : kv.1 = k' := by simpa using hk
      simp [dictSet, hasKey, hk, hkv, Ne.symm h]
    · simp [dictSet, hasKey, hk, ih]

theorem dictGet_dictSet_self (m : Msg) (k : String) (v : Val) :
    dictGet (dictSet m k v) k = some v := by
  induction m with
  | nil => simp [dictSet, dictGet]
  | cons kv rest ih =>
    by_cases h : kv.1 == k
    · simp [dictSet, dictGet, h]
    · simp [dictSet, dictGet, h, ih]

theorem dictGet_dictSet_ne (m : Msg) (k k' : String) (v : Val) (h : k ≠ k') :
    dictGet (dictSet m k' v) k = dictGet m k := by
  induction m with
  | nil => simp [dictSet, dictGet, Ne.symm h]
  | cons kv rest ih =>
    by_cases hk : kv.1 == k'
    · have hkv : kv.1 = k' := by simpa using hk
      simp [dictSet, dictGet, hk, hkv, Ne.symm h]
    · simp [dictSet, dictGet, hk, ih]

theorem hasKey_stamp (rc : Nat) (now : Nat → String) (a : Nat) (m : Msg) :
    hasKey (stamp rc now a m) "userId" = hasKey m "userId" := by
  unfold stamp
  rw [hasKey_dictSet_ne _ _ _ _ (by decide),
    hasKey_dictSet_ne _ _ _ _ (by decide)]

theorem dictGet_stamp_retryCount (rc : Nat) (now : Nat → String) (a : Nat)
    (m : Msg) :
    dictGet (stamp rc now a m) "retryCount" = some (Val.nat (rc + a)) := by
  unfold stamp
  rw [dictGet_dictSet_ne _ _ _ _ (by decide), dictGet_dictSet_self]

theorem dictGet_stamp_lastAttemptAt (rc : Nat) (now : Nat → String) (a : Nat)
    (m : Msg) :
    dictGet (stamp rc now a m) "lastAttemptAt" = some (Val.str (now a)) := by
  unfold stamp
  rw [dictGet_dictSet_self]

end DictLemmas

section RetryLemmas

/-- One-step unfolding of the retry loop when at least one attempt remains. -/
theorem retryGo_succ (base rc : Nat) (scraperOk : Nat → Bool)
    (now : Nat → String) (fuel attempt : Nat) (m : Msg) :
    retryGo base rc scraperOk now (fuel + 1) attempt m =
      match processMessage (stamp rc now attempt m) (scraperOk attempt) with
      | Except.ok _ => ⟨true, stamp rc now attempt m, [], 1⟩
      | Except.error PyExc.valueError =>
        ⟨false, stamp rc now attempt m, [], 1⟩
      | Except.error PyExc.exception =>
        if fuel == 0 then ⟨false, stamp rc now attempt m, [], 1⟩
        else
          ⟨(retryGo base rc scraperOk now fuel (attempt + 1)
              (stamp rc now attempt m)).result,
           (retryGo base rc scraperOk now fuel (attempt + 1)
              (stamp rc now attempt m)).message,
           base ^ attempt :: (retryGo base rc scraperOk now fuel (attempt + 1)
              (stamp rc now attempt m)).sleeps,
           (retryGo base rc scraperOk now fuel (attempt + 1)
              (stamp rc now attempt m)).calls + 1⟩ := rfl

/-- When the scraper fails with a transient (non-`ValueError`) exception on
every attempt, a run of the retry loop with `f + 1` attempts available
returns `False`, invokes the handler `f + 1` times, sleeps
`base ^ attempt` for each attempt except the last, and leaves the final
attempt's stamps on the message. -/
theorem retryGo_all_fail (base rc : Nat) (scraperOk : Nat → Bool)
    (now : Nat → String) (hfail : ∀ a, scraperOk a = false) :
    ∀ (f attempt : Nat) (m : Msg), hasKey m "userId" = true →
      (retryGo base rc scraperOk now (f + 1) attempt m).result = false ∧
      (retryGo base rc scraperOk now (f + 1) attempt m).calls = f + 1 ∧
      (retryGo base rc scraperOk now (f + 1) attempt m).sleeps =
        (List.range f).map (fun i => base ^ (attempt + i)) ∧
      dictGet (retryGo base rc scraperOk now (f + 1) attempt m).message
        "retryCount" = some (Val.nat (rc + (attempt + f))) ∧
      dictGet (retryGo base rc scraperOk now (f + 1) attempt m).message
        "lastAttemptAt" = some (Val.str (now (attempt + f))) := by
  intro f
  induction f with
  | zero =>
    intro attempt m hm
    have hpm : processMessage (stamp rc now attempt m) (scraperOk attempt) =
        Except.error PyExc.exception := by
      simp [processMessage, hasKey_stamp, hm, hfail attempt]
    rw [show (0 : Nat) + 1 = 0 + 1 from rfl]
    refine ⟨?_, ?_, ?_, ?_, ?_⟩ <;>
      · rw [retryGo_succ, hpm]
        simp [dictGet_stamp_retryCount, dictGet_stamp_lastAttemptAt]
  | succ f ih =>
    intro attempt m hm
    have hpm : processMessage (stamp rc now attempt m) (scraperOk attempt) =
        Except.error PyExc.exception := by
      simp [processMessage, hasKey_stamp, hm, hfail attempt]
    have hm1 : hasKey (stamp rc now attempt m) "userId" = true := by
      rw [hasKey_stamp]; exact hm
    obtain ⟨hres, hcalls, hsleeps, hrc, hla⟩ :=
      ih (attempt + 1) (stamp rc now attempt m) hm1
    have hrange : (List.range (f + 1)).map (fun i => base ^ (attempt + i)) =
        base ^ attempt ::
          (List.range f).map (fun i => base ^ (attempt + 1 + i)) := by
      rw [List.range_succ_eq_map]
      simp only [List.map_cons, List.map_map, Nat.add_zero]
      congr 1
      apply List.map_congr_left
      intro i _
      have : attempt + Nat.succ i = attempt + 1 + i := by omega
      simp [Function.comp, this]
    have harith : attempt + 1 + f = attempt + (f + 1) := by omega
    refine ⟨?_, ?_, ?_, ?_, ?_⟩ <;>
      · rw [retryGo_succ, hpm]
        simp [hres, hcalls, hsleeps, hrange, hrc, hla, harith]

end RetryLemmas

/-- C3: for every message with a `userId`, if the handler raises a
non-`ValueError` exception on every attempt, `process_with_retry` invokes the
handler exactly `MAX_RETRIES` times, sleeps exactly `MAX_RETRIES - 1` times
with `RETRY_BACKOFF_BASE ^ attempt` seconds for `attempt = 0, 1, ...`, stamps
`retryCount` and `lastAttemptAt` on the message before each attempt (so the
final message carries the last attempt's stamps), and returns `False`. -/
theorem c3_retry_bound (maxRetries base : Nat) (hmr : 1 ≤ maxRetries)
    (scraperOk : Nat → Bool) (now : Nat → String) (m : Msg)
    (hm : hasKey m "userId" = true) (hfail : ∀ a, scraperOk a = false) :
    (process_with_retry maxRetries base scraperOk now m).result = false ∧
    (process_with_retry maxRetries base scraperOk now m).calls = maxRetries ∧
    (process_with_retry maxRetries base scraperOk now m).sleeps =
      (List.range (maxRetries - 1)).map (fun i => base ^ i) ∧
    dictGet (process_with_retry maxRetries base scraperOk now m).message
      "retryCount" =
      some (Val.nat (getRetryCount m + (maxRetries - 1))) ∧
    dictGet (process_with_retry maxRetries base scraperOk now m).message
      "lastAttemptAt" = some (Val.str (now (maxRetries - 1))) := by
  obtain ⟨f, rfl⟩ : ∃ f, maxRetries = f + 1 :=
    ⟨maxRetries - 1, by omega⟩
  obtain ⟨hres, hcalls, hsleeps, hrc, hla⟩ :=
    retryGo_all_fail base (getRetryCount m) scraperOk now hfail f 0 m hm
  simp only [Nat.zero_add] at hsleeps hrc hla
  unfold process_with_retry
  simp only [Nat.add_sub_cancel]
  exact ⟨hres, hcalls, hsleeps, hrc, hla⟩

/-- Witness for C3 at `MAX_RETRIES = 3`, `RETRY_BACKOFF_BASE = 2` and the
message `{"userId": 42}` with an always-failing scraper: three handler
invocations, sleeps of 1s then 2s, and a `False` result. -/
theorem c3_retry_bound_witness :
    (process_with_retry 3 2 (fun _ => false) (fun _ => "t")
      [("userId", Val.nat 42)]).result = false ∧
    (process_with_retry 3 2 (fun _ => false) (fun _ => "t")
      [("userId", Val.nat 42)]).calls = 3 ∧
    (process_with_retry 3 2 (fun _ => false) (fun _ => "t")
      [("userId", Val.nat 42)]).sleeps = [1, 2] := by
  obtain ⟨h1, h2, h3, -, -⟩ :=
    c3_retry_bound 3 2 (by decide) (fun _ => false) (fun _ => "t")
      [("userId", Val.nat 42)] (by decide) (fun _ => rfl)
  refine ⟨h1, h2, ?_⟩
  rw [h3]
  decide

/-- C4: a (JSON-decodable) message lacking the `userId` key is attempted by
the handler exactly once, causes no backoff sleep, and makes
`process_with_retry` return `False` immediately; the handler signals the
case with a `ValueError`, distinguishable from transient failures. -/
theorem c4_validation_no_retry (maxRetries base : Nat) (hmr : 1 ≤ maxRetries)
    (scraperOk : Nat → Bool) (now : Nat → String) (m : Msg)
    (hm : hasKey m "userId" = false) :
    (process_with_retry maxRetries base scraperOk now m).result = false ∧
    (process_with_retry maxRetries base scraperOk now m).calls = 1 ∧
    (process_with_retry maxRetries base scraperOk now m).sleeps = [] ∧
    processMessage (stamp (getRetryCount m) now 0 m) (scraperOk 0) =
      Except.error PyExc.valueError := by
  obtain ⟨f, rfl⟩ : ∃ f, maxRetries = f + 1 :=
    ⟨maxRetries - 1, by omega⟩
  have hpm : processMessage (stamp (getRetryCount m) now 0 m) (scraperOk 0) =
      Except.error PyExc.valueError := by
    simp [processMessage, hasKey_stamp, hm]
  unfold process_with_retry
  rw [retryGo_succ, hpm]
  simp [hpm]

/-- Witness for C4 at `MAX_RETRIES = 3`, `RETRY_BACKOFF_BASE = 2` and the
message `{"requestedAt": "2025-01-01"}` (no `userId`): one attempt, no
sleeps, `False`. -/
theorem c4_validation_no_retry_witness :
    (process_with_retry 3 2 (fun _ => true) (fun _ => "t")
      [("requestedAt", Val.str "2025-01-01")]).result = false ∧
    (process_with_retry 3 2 (fun _ => true) (fun _ => "t")
      [("requestedAt", Val.str "2025-01-01")]).calls = 1 ∧
    (process_with_retry 3 2 (fun _ => true) (fun _ => "t")
      [("requestedAt", Val.str "2025-01-01")]).sleeps = [] := by
  obtain ⟨h1, h2, h3, -⟩ :=
    c4_validation_no_retry 3 2 (by decide) (fun _ => true) (fun _ => "t")
      [("requestedAt", Val.str "2025-01-01")] (by decide)
  exact ⟨h1, h2, h3⟩

/-! ## The queue consumer (`consumer/stats_refresh_consumer.py`)

The Redis server state visible to the consumer: the processing mirror list
and the failed (dead-letter) list, plus the in-process counters.  Entries
are stored as the `json.dumps` serialization of the message dict, i.e. the
`Msg` value itself (serialization is injective, see the file header). -/

structure CState where
  processing : List Msg
  failedQ : List Msg
  processed : Nat
  succeeded : Nat
  failedCnt : Nat
deriving DecidableEq, Repr

/-- `LREM key 1 value`: remove the first occurrence (head side) of `x`. -/
def lrem1 (l : List Msg) (x : Msg) : List Msg :=
  match l with
  | [] => []
  | y :: ys => if y = x then ys else y :: lrem1 ys x

/-- `StatsRefreshConsumer._process_message`
(`consumer/stats_refresh_consumer.py:127-176`).  `push_to_processing`
serializes the message dict *before* the retry orchestrator mutates it in
place; `push_to_failed` and `remove_from_processing` serialize the dict
again at call time, i.e. the mutated `r.message`. -/
def consumer_process_message (maxRetries base cap : Nat)
    (scraperOk : Nat → Bool) (now : Nat → String) (st : CState)
    (message : Msg) : CState :=
  let st1 : CState := { st with processed := st.processed + 1 }
  let st2 : CState := { st1 with processing := message :: st1.processing }
  let r := process_with_retry maxRetries base scraperOk now message
  if r.result then
    let st3 : CState := { st2 with succeeded := st2.succeeded + 1 }
    { st3 with processing := lrem1 st3.processing r.message }
  else
    let st3 : CState := { st2 with
      failedCnt := st2.failedCnt + 1
      failedQ := List.take cap (r.message :: st2.failedQ) }
    { st3 with processing := lrem1 st3.processing r.message }

/-- C1: evaluation of the consumer on the spec's own scenario — the message
`{"userId": 42}` is enqueued, popped, and the crawl succeeds.  The run
counts as succeeded, yet the mirrored copy pushed to the processing list at
the start of handling is STILL THERE afterwards: `remove_from_processing`
serializes the message dict after `process_with_retry` stamped
`retryCount`/`lastAttemptAt` into it, so its `LREM` pattern
(`{"userId": 42, "retryCount": 0, "lastAttemptAt": ...}`) never matches the
pushed string (`{"userId": 42}`).  This contradicts the claimed removal of
the mirrored copy. -/
theorem c1_mirror_survives_successful_processing :
    (consumer_process_message 3 2 10000 (fun _ => true)
      (fun _ => "2026-10-12T09:00:00") ⟨[], [], 0, 0, 0⟩
      [("userId", Val.nat 42)]).succeeded = 1 ∧
    (consumer_process_message 3 2 10000 (fun _ => true)
      (fun _ => "2026-10-12T09:00:00") ⟨[], [], 0, 0, 0⟩
      [("userId", Val.nat 42)]).processing = [[("userId", Val.nat 42)]] := by
  constructor <;> rfl

/-! ## The Redis queue client (`modules/redis/client.py`) -/

/-- `RedisQueueClient.push_to_failed` (`modules/redis/client.py:184-211`),
restricted to its effect on the failed list: `LPUSH` of the serialized
message followed by `LTRIM 0 (MAX_FAILED_QUEUE_SIZE - 1)`. -/
def push_to_failed (cap : Nat) (q : List Msg) (m : Msg) : List Msg :=
  List.take cap (m :: q)

/-- A sequence of `push_to_failed` calls, oldest entry pushed first. -/
def pushAllToFailed (cap : Nat) (q : List Msg) (xs : List Msg) : List Msg :=
  xs.foldl (push_to_failed cap) q

section FailedQueueLemmas

theorem take_append_take {α : Type} (n : Nat) (a b : List α) :
    List.take n (a ++ List.take n b) = List.take n (a ++ b) := by
  rw [List.take_append_eq_append_take, List.take_append_eq_append_take]
  congr 1
  rw [List.take_take]
  congr 1
  omega

theorem pushAllToFailed_as_take (cap : Nat) :
    ∀ (xs : List Msg) (q : List Msg), q.length ≤ cap →
      pushAllToFailed cap q xs = List.take cap (xs.reverse ++ q) := by
  intro xs
  induction xs with
  | nil =>
    intro q hq
    simpa [pushAllToFailed] using (List.take_of_length_le hq).symm
  | cons x xs ih =>
    intro q hq
    have hlen : (List.take cap (x :: q)).length ≤ cap := by
      simp [List.length_take]
    have step : pushAllToFailed cap q (x :: xs) =
        pushAllToFailed cap (List.take cap (x :: q)) xs := rfl
    rw [step, ih _ hlen, take_append_take]
    congr 1
    simp [List.reverse_cons, List.append_assoc]

end FailedQueueLemmas

/-- C5: the dead-letter queue never exceeds `MAX_FAILED_QUEUE_SIZE`:
starting from any state, pushing `cap + K` entries leaves exactly `cap`
entries, namely the newest `cap` of the pushed entries (newest first); the
`K` oldest pushed entries (and everything that was there before) have been
evicted. -/
theorem c5_dlq_cap (cap K : Nat) (hcap : 1 ≤ cap) (q xs : List Msg)
    (hlen : xs.length = cap + K) :
    pushAllToFailed cap q xs = (xs.drop K).reverse ∧
    (pushAllToFailed cap q xs).length = cap := by
  obtain ⟨x, xs', rfl⟩ : ∃ y ys, xs = y :: ys := by
    cases xs with
    | nil => simp at hlen; omega
    | cons y ys => exact ⟨y, ys, rfl⟩
  have hlen1 : (List.take cap (x :: q)).length ≤ cap := by
    simp [List.length_take]
  have step : pushAllToFailed cap q (x :: xs') =
      pushAllToFailed cap (List.take cap (x :: q)) xs' := rfl
  have hmain : pushAllToFailed cap q (x :: xs') =
      List.take cap ((x :: xs').reverse) := by
    rw [step, pushAllToFailed_as_take cap xs' _ hlen1, take_append_take]
    have hsplit : xs'.reverse ++ x :: q = (x :: xs').reverse ++ q := by
      simp [List.reverse_cons, List.append_assoc]
    rw [hsplit]
    refine List.take_append_of_le_length ?_
    have hxl : (x :: xs').length = cap + K := hlen
    simp only [List.length_cons] at hxl
    simp only [List.length_reverse, List.length_cons]
    omega
  have hdrop : List.take cap ((x :: xs').reverse) =
      ((x :: xs').drop K).reverse := by
    have hsplit : (x :: xs').reverse =
        ((x :: xs').drop K).reverse ++ ((x :: xs').take K).reverse := by
      rw [← List.reverse_append, List.take_append_drop]
    rw [hsplit]
    have hdlen : (((x :: xs').drop K).reverse).length = cap := by
      simp [List.length_drop, hlen]
    rw [List.take_append_of_le_length (by omega)]
    exact List.take_of_length_le (by omega)
  refine ⟨hmain.trans hdrop, ?_⟩
  rw [hmain.trans hdrop]
  simp [List.length_drop, hlen]

/-- Witness for C5 at `cap = 2`, `K = 1`, a non-empty starting queue and
three pushed entries: the two newest pushed entries remain, newest first. -/
theorem c5_dlq_cap_witness :
    pushAllToFailed 2 [[("old", Val.nat 0)]]
      [[("a", Val.nat 1)], [("b", Val.nat 2)], [("c", Val.nat 3)]] =
      [[("c", Val.nat 3)], [("b", Val.nat 2)]] ∧
    (pushAllToFailed 2 [[("old", Val.nat 0)]]
      [[("a", Val.nat 1)], [("b", Val.nat 2)], [("c", Val.nat 3)]]).length =
      2 := by
  obtain ⟨h1, h2⟩ :=
    c5_dlq_cap 2 1 (by decide) [[("old", Val.nat 0)]]
      [[("a", Val.nat 1)], [("b", Val.nat 2)], [("c", Val.nat 3)]]
      (by decide)
  refine ⟨?_, h2⟩
  rw [h1]
  decide

/-- An entry of the failed queue as written by
`RedisQueueClient._push_raw_to_failed` (`modules/redis/client.py:109-144`):
the serialized dict
`{"raw_message": ..., "error": ..., "error_type": "JSONDecodeError"}`.
(Entries written by `push_to_failed` would be serialized messages; the
primary-queue claims only exercise the raw shape.) -/
structure RawFailedEntry where
  raw_message : String
  error : String
  error_type : String
deriving DecidableEq, Repr

/-- Redis state seen by `pop_message`: the primary queue (head = `LPUSH`
side, `BRPOP` pops from the tail) and the failed queue. -/
structure PopState where
  primary : List String
  failedQ : List RawFailedEntry
deriving DecidableEq, Repr

/-- `RedisQueueClient._push_raw_to_failed` (`modules/redis/client.py:109-144`):
`LPUSH` of the raw text together with the error message, tagged
`"JSONDecodeError"`, then `LTRIM` to the cap. -/
def push_raw_to_failed (cap : Nat) (st : PopState) (raw err : String) :
    PopState :=
  { st with failedQ :=
      List.take cap (RawFailedEntry.mk raw err "JSONDecodeError" :: st.failedQ) }

/-- `RedisQueueClient.pop_message` (`modules/redis/client.py:73-107`):
`BRPOP` from the primary queue (`none` = timeout), then `json.loads`; a
decode failure routes the raw text to the failed queue and returns `None`.
`decode` is the JSON parser oracle (`.error e` = `json.JSONDecodeError`
with message `e`). -/
def pop_message (cap : Nat) (decode : String → Except String Msg)
    (st : PopState) : Option Msg × PopState :=
  match st.primary.getLast? with
  | none => (none, st)
  | some s =>
    let st1 : PopState := { st with primary := st.primary.dropLast }
    match decode s with
    | Except.ok m => (some m, st1)
    | Except.error e => (none, push_raw_to_failed cap st1 s e)

/-- C6: popping a payload that is not valid JSON returns `None` (treated
like a timeout, never retried), removes the payload from the primary
queue, and — when the failed queue is under its cap — appends exactly one
entry of the shape
`{"raw_message": <original text>, "error": <decode error>,
"error_type": "JSONDecodeError"}`, preserving the raw text. -/
theorem c6_malformed_payload_to_dlq (cap : Nat)
    (decode : String → Except String Msg) (st : PopState)
    (l : List String) (s e : String)
    (hprim : st.primary = l ++ [s]) (hdec : decode s = Except.error e)
    (hnotin : s ∉ l) (hcap : st.failedQ.length < cap) :
    (pop_message cap decode st).1 = none ∧
    (pop_message cap decode st).2.primary = l ∧
    s ∉ (pop_message cap decode st).2.primary ∧
    (pop_message cap decode st).2.failedQ =
      RawFailedEntry.mk s e "JSONDecodeError" :: st.failedQ := by
  have hlast : st.primary.getLast? = some s := by
    rw [hprim]; exact List.getLast?_concat l
  have hdrop : st.primary.dropLast = l := by
    rw [hprim]; exact List.dropLast_concat
  have hunfold : pop_message cap decode st =
      (none, push_raw_to_failed cap { st with primary := st.primary.dropLast }
        s e) := by
    unfold pop_message
    rw [hlast]
    simp only [hdec]
  rw [hunfold]
  refine ⟨rfl, by simp [push_raw_to_failed, hdrop], ?_, ?_⟩
  · simpa [push_raw_to_failed, hdrop] using hnotin
  · simp only [push_raw_to_failed]
    exact List.take_of_length_le (by simp; omega)

/-- Witness for C6: the spec scenario — the primary queue holds only the
non-JSON payload `"not json"`, the failed queue is empty.  The pop returns
`None`, empties the primary queue, and the DLQ gains exactly the tagged
entry preserving the raw text. -/
theorem c6_malformed_payload_to_dlq_witness :
    (pop_message 10000 (fun _ => Except.error "Expecting value")
      ⟨["not json"], []⟩).1 = none ∧
    (pop_message 10000 (fun _ => Except.error "Expecting value")
      ⟨["not json"], []⟩).2.primary = [] ∧
    "not json" ∉ (pop_message 10000
      (fun _ => Except.error "Expecting value") ⟨["not json"], []⟩).2.primary ∧
    (pop_message 10000 (fun _ => Except.error "Expecting value")
      ⟨["not json"], []⟩).2.failedQ =
      [RawFailedEntry.mk "not json" "Expecting value" "JSONDecodeError"] :=
  c6_malformed_payload_to_dlq 10000 (fun _ => Except.error "Expecting value")
    ⟨["not json"], []⟩ [] "not json" "Expecting value" rfl rfl
    (by simp) (by decide)

/-! ## The crawl engine (`scraping/main.py`) -/

/-- Python exceptions arising in the crawl engine. -/
inductive PyErr where
  | decryptError
  | keyError
  | netError
  | dbError
deriving DecidableEq, Repr

/-- The `user.access_token` / `user.refresh_token` fields (ciphertext). -/
structure UserTokens where
  access_token : String
  refresh_token : String
deriving DecidableEq, Repr

/-- The `new_user_cookies` dict handed to `update_old_tokens`. -/
structure VelogCookies where
  access_token : String
  refresh_token : String
deriving DecidableEq, Repr

/-- `Scraper.update_old_tokens` (`scraping/main.py:28-66`).
`decrypt`/`encrypt` are the `AESEncryption` oracles, `save` the outcome of
`user.asave`.  The two `decrypt` calls (lines 35-36) run *before* the
`try`, so their exceptions propagate; everything inside the `try` —
including the `return True` on line 59 and any exception from `asave` — is
overridden by the `return False` in the `finally` block (line 66).
Returns the Python return value together with the (possibly mutated)
in-memory user fields. -/
def update_old_tokens (decrypt : String → Except PyErr String)
    (encrypt : String → String) (save : Except PyErr Unit)
    (user : UserTokens) (new : VelogCookies) :
    Except PyErr (Bool × UserTokens) :=
  match decrypt user.access_token with
  | Except.error e => Except.error e
  | Except.ok curAccess =>
    match decrypt user.refresh_token with
    | Except.error e => Except.error e
    | Except.ok curRefresh =>
      let user1 := if new.access_token ≠ curAccess then
        { user with access_token := encrypt new.access_token } else user
      let user2 := if new.refresh_token ≠ curRefresh then
        { user1 with refresh_token := encrypt new.refresh_token } else user1
      let update_fields :=
        (if new.access_token ≠ curAccess then ["access_token"] else []) ++
        (if new.refresh_token ≠ curRefresh then ["refresh_token"] else [])
      let tryOutcome : Except PyErr Bool :=
        if update_fields ≠ [] then
          match save with
          | Except.ok _ => Except.ok true
          | Except.error e => Except.error e
        else Except.ok false
      match tryOutcome with
      | _ => Except.ok (false, user2)

/-- Counterexample to C10: at a concrete input whose ciphertext fails to
decrypt, `update_old_tokens` *does* propagate the exception — the two
`decrypt` calls sit before the `try`/`finally`, outside the protection of
the `return False` — so "for every input ... never propagates an
exception" is false. -/
theorem c10_counterexample_decrypt_propagates :
    update_old_tokens (fun _ => Except.error PyErr.decryptError) id
      (Except.ok ()) ⟨"cipherA", "cipherR"⟩ ⟨"newA", "newR"⟩ =
      Except.error PyErr.decryptError := rfl

/-- C10 (amended): whenever the two initial `decrypt` calls succeed,
`update_old_tokens` returns `False` — even on the path that re-encrypted
and persisted rotated tokens (whose `return True` is overridden by the
`finally` block) and even when `asave` itself raised (the exception is
swallowed by the `finally` `return False`).  Only a failure of the
pre-`try` `decrypt` calls can propagate. -/
theorem c10_always_false_after_decrypt (decrypt : String → Except PyErr String)
    (encrypt : String → String) (save : Except PyErr Unit)
    (user : UserTokens) (new : VelogCookies) (curA curR : String)
    (hA : decrypt user.access_token = Except.ok curA)
    (hR : decrypt user.refresh_token = Except.ok curR) :
    ∃ u2, update_old_tokens decrypt encrypt save user new =
      Except.ok (false, u2) := by
  unfold update_old_tokens
  rw [hA, hR]
  exact ⟨_, rfl⟩

/-- Witness for C10 (amended) with identity decryption, rotated tokens and
a *failing* `asave`: the save error is swallowed and `False` is returned
with the rotated in-memory fields. -/
theorem c10_always_false_after_decrypt_witness :
    ∃ u2, update_old_tokens (fun s => Except.ok s) id
      (Except.error PyErr.dbError) ⟨"oldA", "oldR"⟩ ⟨"newA", "newR"⟩ =
      Except.ok (false, u2) :=
  c10_always_false_after_decrypt (fun s => Except.ok s) id
    (Except.error PyErr.dbError) ⟨"oldA", "oldR"⟩ ⟨"newA", "newR"⟩
    "oldA" "oldR" rfl rfl

/-- The JSON body returned by the token-validity check
(`fetch_velog_user_chk`), classified by how
`user_data["data"]["currentUser"]` behaves on it
(`scraping/main.py:182-198`). -/
inductive UserChkData where
  | emptyDict
  | noDataKey
  | noCurrentUserKey
  | nullCurrentUser
  | currentUser (username : String)
deriving DecidableEq, Repr

/-- The per-user external world of `Scraper.process_user`
(`scraping/main.py:166-233`): outcomes of credential decryption, the
token-validity fetch (returning the new-cookie dict and the identity
body), the post-list fetch, and the chunked statistics phase. -/
structure UserWorld where
  decryptAccess : Except PyErr String
  decryptRefresh : Except PyErr String
  fetchUserChk : Except PyErr (List (String × String) × UserChkData)
  fetchPosts : Except PyErr Unit
  statsPhase : Except PyErr Unit
deriving Repr

/-- `Scraper.process_user` (`scraping/main.py:166-233`).  The decryption of
the stored credentials (lines 173-174) and every `await` of a fetch run
with no surrounding `try`, so their exceptions propagate to the caller;
`user_data["data"]["currentUser"]` on a malformed identity body raises
`KeyError`; a `None` `currentUser` (and an empty body with no cookies) is
skipped gracefully.  `update_old_tokens` and `bulk_insert_posts` swallow
their errors internally and cannot raise here. -/
def process_user (w : UserWorld) : Except PyErr Unit := do
  let _origAccess ← w.decryptAccess
  let _origRefresh ← w.decryptRefresh
  let (cookies, userData) ← w.fetchUserChk
  if userData = UserChkData.emptyDict ∧ cookies = [] then
    return ()
  match userData with
  | UserChkData.emptyDict => throw PyErr.keyError
  | UserChkData.noDataKey => throw PyErr.keyError
  | UserChkData.noCurrentUserKey => throw PyErr.keyError
  | UserChkData.nullCurrentUser => return ()
  | UserChkData.currentUser _username => do
    let _posts ← w.fetchPosts
    w.statsPhase

/-- The `for user in users: await self.process_user(user, session)` loop of
`Scraper.run` (`scraping/main.py:251-252`), which has no per-user exception
handling.  Returns how many users were handed to `process_user` and the
exception that aborted the loop, if any. -/
def runUsers : List UserWorld → Nat × Option PyErr
  | [] => (0, none)
  | w :: ws =>
    match process_user w with
    | Except.error e => (1, some e)
    | Except.ok _ =>
      let r := runUsers ws
      (r.1 + 1, r.2)

/-- A user whose stored credentials fail to decrypt. -/
def badDecryptWorld : UserWorld :=
  { decryptAccess := Except.error PyErr.decryptError
    decryptRefresh := Except.error PyErr.decryptError
    fetchUserChk := Except.ok ([], UserChkData.currentUser "alice")
    fetchPosts := Except.ok ()
    statsPhase := Except.ok () }

/-- A user whose whole crawl succeeds. -/
def goodWorld : UserWorld :=
  { decryptAccess := Except.ok "access"
    decryptRefresh := Except.ok "refresh"
    fetchUserChk :=
      Except.ok ([("access_token", "new")], UserChkData.currentUser "alice")
    fetchPosts := Except.ok ()
    statsPhase := Except.ok () }

/-- Counterexample to C2: in a two-user batch whose first user has a
credential decryption failure, the exception propagates out of
`process_user` and `Scraper.run`'s loop halts — only one user is ever
attempted, although the second user would have processed fine. -/
theorem c2_counterexample_user_exception_halts_batch :
    runUsers [badDecryptWorld, goodWorld] = (1, some PyErr.decryptError) ∧
    process_user goodWorld = Except.ok () := ⟨rfl, rfl⟩

/-- C2 (amended): `Scraper.run` has no per-user exception isolation.  If
every user before `w` processes cleanly and processing `w` raises (e.g. a
credential decryption failure or a malformed identity response), the batch
loop stops at `w`: exactly `ws1.length + 1` users are attempted and the
users after `w` are never processed; the exception aborts the run. -/
theorem c2_no_user_isolation (ws1 ws2 : List UserWorld) (w : UserWorld)
    (e : PyErr) (hok : ∀ v ∈ ws1, process_user v = Except.ok ())
    (herr : process_user w = Except.error e) :
    runUsers (ws1 ++ w :: ws2) = (ws1.length + 1, some e) := by
  induction ws1 with
  | nil => simp [runUsers, herr]
  | cons v vs ih =>
    have hv : process_user v = Except.ok () := hok v (by simp)
    have hvs : ∀ u ∈ vs, process_user u = Except.ok () := fun u hu =>
      hok u (by simp [hu])
    simp [runUsers, hv, ih hvs]

/-- Witness for C2 (amended): good user, then decryption-failure user,
then another good user — two users attempted, the third never reached. -/
theorem c2_no_user_isolation_witness :
    runUsers [goodWorld, badDecryptWorld, goodWorld] =
      (2, some PyErr.decryptError) := by
  have h := c2_no_user_isolation [goodWorld] [goodWorld] badDecryptWorld
    PyErr.decryptError
    (by
      intro v hv
      have : v = goodWorld := by simpa using hv
      rw [this]
      rfl)
    rfl
  simpa using h

/-! ## Post rows and the daily-statistic upsert -/

/-- A row of the `Post` table (`posts/models.py:8-29`); `post_uuid` is
unique. -/
structure PostRow where
  post_uuid : String
  title : String
  user_id : Nat
  slug : String
  released_at : String
deriving DecidableEq, Repr

/-- A row of `PostDailyStatistics` (`posts/models.py:58-88`);
`unique_together = ("post", "date")`.  Dates and timestamps are abstracted
to `Nat`. -/
structure DSRow where
  post_uuid : String
  date : Nat
  daily_view_count : Nat
  daily_like_count : Nat
  updated_at : Nat
deriving DecidableEq, Repr

/-- `stats_data["getStats"]` of a statistics response;
`.get("total", 0)` defaults a missing total to 0. -/
structure GetStats where
  total : Option Nat
deriving DecidableEq, Repr

/-- `stats.get("data", {})` of a statistics response. -/
structure StatsData where
  getStats : Option GetStats
deriving DecidableEq, Repr

/-- The `stats` dict passed to `update_daily_statistics`; `none` models a
falsy/non-dict value. -/
structure StatsPayload where
  data : Option StatsData
deriving DecidableEq, Repr

/-- The `post` dict passed to `update_daily_statistics`:
`post["id"]` and `post.get("likes", 0)`. -/
structure PostPayload where
  id : String
  likes : Option Nat
deriving DecidableEq, Repr

/-- The `(post, date)` key of `PostDailyStatistics.Meta.unique_together`. -/
def matchesKey (u : String) (d : Nat) (r : DSRow) : Bool :=
  r.post_uuid == u && r.date == d

/-- The field assignments and `asave` of `update_daily_statistics`
(`scraping/main.py:139-149`), applied to the row keyed `(post, date)`. -/
def updRow (u : String) (d : Nat) (view like now : Nat) (r : DSRow) : DSRow :=
  if matchesKey u d r then
    { r with daily_view_count := view, daily_like_count := like,
             updated_at := now }
  else r

/-- The `aget_or_create` + field-update step of `update_daily_statistics`
(`scraping/main.py:128-149`): update the row keyed `(post, date)` in place
when it exists, else create it with the supplied counts. -/
def applyUpsert (db : List DSRow) (u : String) (d : Nat)
    (view like now : Nat) : List DSRow :=
  if db.any (matchesKey u d) then db.map (updRow u d view like now)
  else db ++ [⟨u, d, view, like, now⟩]

/-- `Scraper.update_daily_statistics` (`scraping/main.py:99-154`): skip on
falsy/invalid `stats`, skip when the post row does not exist
(`Post.DoesNotExist` is caught), skip on missing `data`/`getStats`, else
upsert the latest snapshot for `(post, today)`. -/
def update_daily_statistics (posts : List PostRow) (db : List DSRow)
    (post : PostPayload) (stats : Option StatsPayload)
    (today now : Nat) : List DSRow :=
  match stats with
  | none => db
  | some s =>
    match posts.find? (fun p => p.post_uuid == post.id) with
    | none => db
    | some _ =>
      match s.data with
      | none => db
      | some sd =>
        match sd.getStats with
        | none => db
        | some gs =>
          applyUpsert db post.id today (gs.total.getD 0) (post.likes.getD 0)
            now

section UpsertLemmas

theorem matchesKey_updRow (u : String) (d : Nat) (view like now : Nat)
    (r : DSRow) :
    matchesKey u d (updRow u d view like now r) = matchesKey u d r := by
  unfold updRow
  by_cases h : matchesKey u d r = true
  · rw [if_pos h]
    simp [matchesKey]
  · rw [if_neg h]

theorem applyUpsert_pos (db : List DSRow) (u : String) (d : Nat)
    (view like now : Nat) (hany : db.any (matchesKey u d) = true) :
    applyUpsert db u d view like now = db.map (updRow u d view like now) := by
  unfold applyUpsert
  rw [if_pos hany]

theorem applyUpsert_neg (db : List DSRow) (u : String) (d : Nat)
    (view like now : Nat) (hany : ¬db.any (matchesKey u d) = true) :
    applyUpsert db u d view like now = db ++ [⟨u, d, view, like, now⟩] := by
  unfold applyUpsert
  rw [if_neg hany]

theorem countP_applyUpsert (db : List DSRow) (u : String) (d : Nat)
    (view like now : Nat) :
    (applyUpsert db u d view like now).countP (matchesKey u d) =
      if db.any (matchesKey u d) then db.countP (matchesKey u d)
      else db.countP (matchesKey u d) + 1 := by
  by_cases hany : db.any (matchesKey u d) = true
  · rw [applyUpsert_pos db u d view like now hany, if_pos hany,
      List.countP_map]
    refine congrArg (fun p => List.countP p db) ?_
    funext r
    simp [Function.comp, matchesKey_updRow]
  · rw [applyUpsert_neg db u d view like now hany, if_neg hany,
      List.countP_append]
    simp [matchesKey]

theorem mem_applyUpsert_matches (db : List DSRow) (u : String) (d : Nat)
    (view like now : Nat) (r : DSRow)
    (hr : r ∈ applyUpsert db u d view like now)
    (hm : matchesKey u d r = true) :
    r.daily_view_count = view ∧ r.daily_like_count = like := by
  by_cases hany : db.any (matchesKey u d) = true
  · rw [applyUpsert_pos db u d view like now hany] at hr
    obtain ⟨r0, hr0, rfl⟩ := List.mem_map.mp hr
    rw [matchesKey_updRow] at hm
    unfold updRow
    rw [if_pos hm]
    exact ⟨rfl, rfl⟩
  · rw [applyUpsert_neg db u d view like now hany] at hr
    rcases List.mem_append.mp hr with hin | hnew
    · exact absurd (List.any_eq_true.mpr ⟨r, hin, hm⟩) hany
    · obtain rfl : r = ⟨u, d, view, like, now⟩ := by simpa using hnew
      exact ⟨rfl, rfl⟩

theorem any_applyUpsert (db : List DSRow) (u : String) (d : Nat)
    (view like now : Nat) :
    (applyUpsert db u d view like now).any (matchesKey u d) = true := by
  by_cases hany : db.any (matchesKey u d) = true
  · rw [applyUpsert_pos db u d view like now hany]
    obtain ⟨r, hr, hm⟩ := List.any_eq_true.mp hany
    refine List.any_eq_true.mpr
      ⟨updRow u d view like now r, List.mem_map_of_mem _ hr, ?_⟩
    rw [matchesKey_updRow]
    exact hm
  · rw [applyUpsert_neg db u d view like now hany]
    refine List.any_eq_true.mpr ⟨⟨u, d, view, like, now⟩, by simp, ?_⟩
    simp [matchesKey]

end UpsertLemmas

/-- C7: for a given post and date, running the daily-statistic upsert twice
on the same day — with valid statistics payloads both times, the post row
present, and the `(post, date)` uniqueness invariant holding beforehand —
leaves exactly one `DailyStatistic` row keyed `(post, date)`, and its view
and like counts equal the values supplied by the second write, never the
sum of the two writes. -/
theorem c7_upsert_latest_snapshot (posts : List PostRow) (db : List DSRow)
    (p1 p2 : PostPayload) (s1 s2 : StatsPayload) (d1 d2 : StatsData)
    (g1 g2 : GetStats) (today now1 now2 : Nat)
    (hid : p2.id = p1.id)
    (hpost : (posts.find? (fun p => p.post_uuid == p1.id)).isSome)
    (h1d : s1.data = some d1) (h1g : d1.getStats = some g1)
    (h2d : s2.data = some d2) (h2g : d2.getStats = some g2)
    (huniq : db.countP (matchesKey p1.id today) ≤ 1) :
    (update_daily_statistics posts
        (update_daily_statistics posts db p1 (some s1) today now1)
        p2 (some s2) today now2).countP (matchesKey p1.id today) = 1 ∧
    ∀ r ∈ update_daily_statistics posts
        (update_daily_statistics posts db p1 (some s1) today now1)
        p2 (some s2) today now2,
      matchesKey p1.id today r = true →
        r.daily_view_count = g2.total.getD 0 ∧
        r.daily_like_count = p2.likes.getD 0 := by
  obtain ⟨q, hq⟩ := Option.isSome_iff_exists.mp hpost
  have hq2 : posts.find? (fun p => p.post_uuid == p2.id) = some q := by
    rw [hid]; exact hq
  have e1 : update_daily_statistics posts db p1 (some s1) today now1 =
      applyUpsert db p1.id today (g1.total.getD 0) (p1.likes.getD 0) now1 := by
    unfold update_daily_statistics
    rw [hq]
    simp only [h1d, h1g]
  have e2 : ∀ (db' : List DSRow),
      update_daily_statistics posts db' p2 (some s2) today now2 =
      applyUpsert db' p2.id today (g2.total.getD 0) (p2.likes.getD 0)
        now2 := by
    intro db'
    unfold update_daily_statistics
    rw [hq2]
    simp only [h2d, h2g]
  rw [e1, e2, hid]
  set db1 := applyUpsert db p1.id today (g1.total.getD 0) (p1.likes.getD 0)
    now1 with hdb1
  have hany1 : db1.any (matchesKey p1.id today) = true := any_applyUpsert ..
  have hcount1 : db1.countP (matchesKey p1.id today) = 1 := by
    rw [hdb1, countP_applyUpsert]
    by_cases hany : db.any (matchesKey p1.id today)
    · have : 0 < db.countP (matchesKey p1.id today) :=
        List.countP_pos_iff.mpr (List.any_eq_true.mp hany)
      simp [hany]
      omega
    · have : db.countP (matchesKey p1.id today) = 0 := by
        refine Nat.eq_zero_of_le_zero ?_
        by_contra h
        exact hany (List.any_eq_true.mpr
          (List.countP_pos_iff.mp (Nat.pos_of_ne_zero (by omega))))
      simp [hany, this]
  constructor
  · rw [countP_applyUpsert, if_pos hany1, hcount1]
  · intro r hr hm
    exact mem_applyUpsert_matches db1 p1.id today _ _ now2 r hr hm

/-- Witness for C7: one post, an empty statistics table, two writes on the
same day with view counts 100 then 200 and likes 5 then 7 — one row
remains, holding 200 and 7. -/
theorem c7_upsert_latest_snapshot_witness :
    (update_daily_statistics [⟨"p1", "T", 1, "slug", "2025-01-01"⟩]
        (update_daily_statistics [⟨"p1", "T", 1, "slug", "2025-01-01"⟩] []
          ⟨"p1", some 5⟩ (some ⟨some ⟨some ⟨some 100⟩⟩⟩) 1 10)
        ⟨"p1", some 7⟩ (some ⟨some ⟨some ⟨some 200⟩⟩⟩) 1 20).countP
      (matchesKey "p1" 1) = 1 ∧
    ∀ r ∈ update_daily_statistics [⟨"p1", "T", 1, "slug", "2025-01-01"⟩]
        (update_daily_statistics [⟨"p1", "T", 1, "slug", "2025-01-01"⟩] []
          ⟨"p1", some 5⟩ (some ⟨some ⟨some ⟨some 100⟩⟩⟩) 1 10)
        ⟨"p1", some 7⟩ (some ⟨some ⟨some ⟨some 200⟩⟩⟩) 1 20,
      matchesKey "p1" 1 r = true →
        r.daily_view_count = 200 ∧ r.daily_like_count = 7 :=
  c7_upsert_latest_snapshot [⟨"p1", "T", 1, "slug", "2025-01-01"⟩] []
    ⟨"p1", some 5⟩ ⟨"p1", some 7⟩ ⟨some ⟨some ⟨some 100⟩⟩⟩
    ⟨some ⟨some ⟨some 200⟩⟩⟩ ⟨some ⟨some 100⟩⟩ ⟨some ⟨some 200⟩⟩
    ⟨some 100⟩ ⟨some 200⟩ 1 10 20 rfl (by decide)
    rfl rfl rfl rfl (by decide)

/-! ## `Scraper.bulk_insert_posts` (`scraping/main.py:68-97`) -/

/-- A post dict as fetched from the remote API. -/
structure FetchedPost where
  id : String
  title : String
  url_slug : String
  released_at : String
deriving DecidableEq, Repr

/-- The `Post(...)` construction inside `bulk_insert_posts`
(`scraping/main.py:78-84`). -/
def makePost (userId : Nat) (p : FetchedPost) : PostRow :=
  ⟨p.id, p.title, userId, p.url_slug, p.released_at⟩

/-- Whether the table already holds a row with the given `post_uuid`. -/
def uuidMem (db : List PostRow) (u : String) : Bool :=
  db.any (fun r => r.post_uuid == u)

/-- Insertion of one row under `bulk_create(..., ignore_conflicts=True)`
with the unique `post_uuid` column (`posts/models.py:9-11`): a conflicting
row is silently skipped. -/
def insertIgnoreConflicts (db : List PostRow) (p : PostRow) : List PostRow :=
  if uuidMem db p.post_uuid then db else db ++ [p]

/-- One `bulk_create` call on a batch (`scraping/main.py:87-90`): rows are
inserted in order, conflicts silently ignored. -/
def bulk_create (db : List PostRow) (batch : List PostRow) : List PostRow :=
  batch.foldl insertIgnoreConflicts db

/-- The `for i in range(0, len(fetched_posts), batch_size)` slicing of
`bulk_insert_posts` (`scraping/main.py:76-85`), as the list of batches. -/
def toBatches (bs : Nat) : List FetchedPost → List (List FetchedPost)
  | [] => []
  | x :: xs => (x :: xs.take (bs - 1)) :: toBatches bs (xs.drop (bs - 1))
  termination_by l => l.length
  decreasing_by simp [List.length_drop]; omega

/-- `Scraper.bulk_insert_posts` (`scraping/main.py:68-97`), restricted to
its effect on the `Post` table: each batch of `batch_size` fetched posts is
turned into rows and bulk-created with conflicts ignored. -/
def bulk_insert_posts (userId bs : Nat) (db : List PostRow)
    (fetched : List FetchedPost) : List PostRow :=
  (toBatches bs fetched).foldl
    (fun d batch => bulk_create d (batch.map (makePost userId))) db

section BulkInsertLemmas

theorem flatten_toBatches (bs : Nat) (l : List FetchedPost) :
    (toBatches bs l).flatten = l := by
  generalize hn : l.length = n
  induction n using Nat.strong_induction_on generalizing l with
  | _ n ih =>
    cases l with
    | nil => simp [toBatches]
    | cons x xs =>
      rw [toBatches]
      simp only [List.flatten_cons]
      rw [ih ((xs.drop (bs - 1)).length) (by
          simp only [List.length_cons] at hn
          simp [List.length_drop]
          omega) (xs.drop (bs - 1)) rfl]
      simp [List.take_append_drop]

theorem bulk_insert_posts_eq_bulk_create (userId bs : Nat)
    (db : List PostRow) (fetched : List FetchedPost) :
    bulk_insert_posts userId bs db fetched =
      bulk_create db (fetched.map (makePost userId)) := by
  unfold bulk_insert_posts bulk_create
  rw [← flatten_toBatches bs fetched, List.map_flatten, List.foldl_flatten]
  rw [flatten_toBatches bs fetched, List.foldl_map]

theorem uuidMem_insertIgnoreConflicts_mono (db : List PostRow) (p : PostRow)
    (u : String) (h : uuidMem db u = true) :
    uuidMem (insertIgnoreConflicts db p) u = true := by
  unfold insertIgnoreConflicts
  by_cases hp : uuidMem db p.post_uuid = true
  · rw [if_pos hp]; exact h
  · rw [if_neg hp]
    unfold uuidMem at h ⊢
    rw [List.any_append, h, Bool.true_or]

theorem uuidMem_insertIgnoreConflicts_self (db : List PostRow)
    (p : PostRow) :
    uuidMem (insertIgnoreConflicts db p) p.post_uuid = true := by
  unfold insertIgnoreConflicts
  by_cases hp : uuidMem db p.post_uuid = true
  · rw [if_pos hp]; exact hp
  · rw [if_neg hp]
    unfold uuidMem
    rw [List.any_append]
    simp

theorem uuidMem_bulk_create_mono (batch : List PostRow) :
    ∀ (db : List PostRow) (u : String), uuidMem db u = true →
      uuidMem (bulk_create db batch) u = true := by
  induction batch with
  | nil => intro db u h; exact h
  | cons q rest ih =>
    intro db u h
    exact ih (insertIgnoreConflicts db q) u
      (uuidMem_insertIgnoreConflicts_mono db q u h)

theorem uuidMem_bulk_create_self (batch : List PostRow) :
    ∀ (db : List PostRow) (p : PostRow), p ∈ batch →
      uuidMem (bulk_create db batch) p.post_uuid = true := by
  induction batch with
  | nil => intro db p hp; cases hp
  | cons q rest ih =>
    intro db p hp
    rcases List.mem_cons.mp hp with rfl | hrest
    · exact uuidMem_bulk_create_mono rest (insertIgnoreConflicts db p)
        p.post_uuid (uuidMem_insertIgnoreConflicts_self db p)
    · exact ih (insertIgnoreConflicts db q) p hrest

theorem bulk_create_of_all_mem (batch : List PostRow) :
    ∀ (db : List PostRow), (∀ p ∈ batch, uuidMem db p.post_uuid = true) →
      bulk_create db batch = db := by
  induction batch with
  | nil => intro db _; rfl
  | cons q rest ih =>
    intro db h
    have hq : insertIgnoreConflicts db q = db := by
      unfold insertIgnoreConflicts
      rw [if_pos (h q (by simp))]
    show bulk_create (insertIgnoreConflicts db q) rest = db
    rw [hq]
    exact ih db (fun p hp => h p (by simp [hp]))

theorem bulk_create_idem (db : List PostRow) (l : List PostRow) :
    bulk_create (bulk_create db l) l = bulk_create db l :=
  bulk_create_of_all_mem l (bulk_create db l)
    (fun p hp => uuidMem_bulk_create_self l db p hp)

theorem bulk_create_append (db : List PostRow) (a b : List PostRow) :
    bulk_create db (a ++ b) = bulk_create (bulk_create db a) b := by
  unfold bulk_create
  exact List.foldl_append _ _ _ _

theorem uuid_nodup_insertIgnoreConflicts (db : List PostRow) (p : PostRow)
    (h : (db.map (fun r => r.post_uuid)).Nodup) :
    ((insertIgnoreConflicts db p).map (fun r => r.post_uuid)).Nodup := by
  unfold insertIgnoreConflicts
  by_cases hp : uuidMem db p.post_uuid = true
  · rw [if_pos hp]; exact h
  · rw [if_neg hp]
    rw [List.map_append]
    rw [List.nodup_append]
    refine ⟨h, by simp, ?_⟩
    intro u hu
    simp only [List.map_cons, List.map_nil, List.mem_singleton]
    intro hup
    subst hup
    obtain ⟨r, hr, hru⟩ := List.mem_map.mp hu
    exact hp (List.any_eq_true.mpr ⟨r, hr, by simp [hru]⟩)

theorem uuid_nodup_bulk_create (batch : List PostRow) :
    ∀ (db : List PostRow), (db.map (fun r => r.post_uuid)).Nodup →
      ((bulk_create db batch).map (fun r => r.post_uuid)).Nodup := by
  induction batch with
  | nil => intro db h; exact h
  | cons q rest ih =>
    intro db h
    exact ih (insertIgnoreConflicts db q)
      (uuid_nodup_insertIgnoreConflicts db q h)

end BulkInsertLemmas

/-- C8: the post sync is idempotent.  With the same fetched post set,
(a) running `bulk_insert_posts` on top of a completed run inserts nothing
new, (b) running it on top of a run that stopped after any prefix of the
fetched posts (crash between batches) yields exactly the rows of a single
complete run, and (c) no duplicate `post_uuid` ever appears when the table
satisfied the uniqueness invariant beforehand. -/
theorem c8_bulk_insert_idempotent (userId bs : Nat) (hbs : 1 ≤ bs)
    (db : List PostRow) (fetched : List FetchedPost) (k : Nat)
    (hnd : (db.map (fun r => r.post_uuid)).Nodup) :
    bulk_insert_posts userId bs (bulk_insert_posts userId bs db fetched)
        fetched = bulk_insert_posts userId bs db fetched ∧
    bulk_insert_posts userId bs
        (bulk_create db ((fetched.take k).map (makePost userId))) fetched =
      bulk_insert_posts userId bs db fetched ∧
    ((bulk_insert_posts userId bs db fetched).map
        (fun r => r.post_uuid)).Nodup := by
  have hAB : (fetched.map (makePost userId)).take k ++
      fetched.map (makePost userId) =
      ((fetched.map (makePost userId)).take k ++
        (fetched.map (makePost userId)).take k) ++
        (fetched.map (makePost userId)).drop k := by
    rw [List.append_assoc, List.take_append_drop]
  refine ⟨?_, ?_, ?_⟩
  · rw [bulk_insert_posts_eq_bulk_create, bulk_insert_posts_eq_bulk_create]
    exact bulk_create_idem db (fetched.map (makePost userId))
  · rw [bulk_insert_posts_eq_bulk_create, bulk_insert_posts_eq_bulk_create,
      List.map_take, ← bulk_create_append, hAB,
      bulk_create_append, bulk_create_append, bulk_create_idem,
      ← bulk_create_append, List.take_append_drop]
  · rw [bulk_insert_posts_eq_bulk_create]
    exact uuid_nodup_bulk_create (fetched.map (makePost userId)) db hnd

/-- Witness for C8 with batch size 2, an empty table, three fetched posts
containing a duplicate id, and a re-run stopping point `k = 2`. -/
theorem c8_bulk_insert_idempotent_witness :
    bulk_insert_posts 1 2
        (bulk_insert_posts 1 2 []
          [⟨"a", "A", "a", "d"⟩, ⟨"b", "B", "b", "d"⟩, ⟨"a", "A2", "a2", "d"⟩])
        [⟨"a", "A", "a", "d"⟩, ⟨"b", "B", "b", "d"⟩, ⟨"a", "A2", "a2", "d"⟩] =
      bulk_insert_posts 1 2 []
        [⟨"a", "A", "a", "d"⟩, ⟨"b", "B", "b", "d"⟩,
          ⟨"a", "A2", "a2", "d"⟩] ∧
    bulk_insert_posts 1 2
        (bulk_create []
          (([⟨"a", "A", "a", "d"⟩, ⟨"b", "B", "b", "d"⟩,
            ⟨"a", "A2", "a2", "d"⟩] : List FetchedPost).take 2 |>.map
            (makePost 1)))
        [⟨"a", "A", "a", "d"⟩, ⟨"b", "B", "b", "d"⟩, ⟨"a", "A2", "a2", "d"⟩] =
      bulk_insert_posts 1 2 []
        [⟨"a", "A", "a", "d"⟩, ⟨"b", "B", "b", "d"⟩,
          ⟨"a", "A2", "a2", "d"⟩] ∧
    ((bulk_insert_posts 1 2 []
        [⟨"a", "A", "a", "d"⟩, ⟨"b", "B", "b", "d"⟩,
          ⟨"a", "A2", "a2", "d"⟩]).map (fun r => r.post_uuid)).Nodup :=
  c8_bulk_insert_idempotent 1 2 (by decide) []
    [⟨"a", "A", "a", "d"⟩, ⟨"b", "B", "b", "d"⟩, ⟨"a", "A2", "a2", "d"⟩]
    2 (by simp)

end VD2
